import Mathlib

/-!
Verification of the Defenders-Dashboard simulation core.

A shallow embedding of the game's state model and the operations of
`gameModel` (simulationController.js), `ruleEngine.js`,
`escalationsController.js` and `eventGenerator.js`, followed by theorems
settling the specification claims about them.

Conventions of the embedding:
* JavaScript numbers are modelled as `Int` where the code only ever holds
  integers (timestamps, thresholds, counts) and as `Rat` where fractional
  values arise (uptime, severity multipliers, speed bonuses, weights).
* `Math.round x` is `⌊x + 1/2⌋` (JavaScript rounds half-up), `Math.ceil`
  is `⌈·⌉`.
* Fields that may be absent on a JavaScript event object are `Option`s;
  JavaScript string truthiness is `≠ ""`, and a comparison against an
  absent field (`undefined`/`NaN`) is `false`, as in the engine.
* `eventBus.publish` is modelled by returning the list of published topic
  names in publication order.
-/

/-- JavaScript `Math.round`: round half-up. -/
def jsRound (q : ℚ) : ℤ := ⌊q + 1/2⌋

/-- Prefix test on character lists: `needle` begins `hay`. -/
def listStartsWith : List Char → List Char → Bool
  | [], _ => true
  | _ :: _, [] => false
  | a :: as, b :: bs => a == b && listStartsWith as bs

/-- Substring containment on character lists, as JavaScript
`String.prototype.includes`: some suffix of `hay` starts with `needle`. -/
def hasSubstring : List Char → List Char → Bool
  | [], needle => needle.isEmpty
  | c :: rest, needle => listStartsWith needle (c :: rest) || hasSubstring rest needle

/-- JavaScript `s.includes(pat)`. -/
def strIncludes (s pat : String) : Bool :=
  hasSubstring s.toList pat.toList

/-- A generated game event (eventGenerator.js `generateEvent` plus
`addTypeSpecificProperties`); type-specific fields are optional. -/
structure Event where
  timestamp : Int
  type : String
  ip : String
  category : String
  severity : ℚ
  count : Option Int := none
  volume : Option Int := none
  code : Option Int := none
  process : Option String := none
  domain : Option String := none
  resource : Option String := none
  service : Option String := none
deriving DecidableEq, Repr

/-- A player-authored detection rule (ruleEngine.js). Only the parameter
relevant to `conditionType` is meaningful; the others default. -/
structure Rule where
  conditionType : String
  threshold : Int := 0
  errorCodeThreshold : Int := 0
  processName : String := ""
  domainKeyword : String := ""
  resourceKeyword : String := ""
  serviceName : String := ""
deriving DecidableEq, Repr

/-- `parseInt(x) > t` for an optional numeric event field: comparison with
an absent field (`NaN`) is false. -/
def optGt (x : Option Int) (t : Int) : Bool :=
  match x with
  | some v => v > t
  | none => false

/-- `parseInt(x) >= t` for an optional numeric event field. -/
def optGe (x : Option Int) (t : Int) : Bool :=
  match x with
  | some v => t ≤ v
  | none => false

/-- ruleEngine.js `evaluateRule(rule, event)`: dispatch on
`rule.conditionType`; every branch requires `event.type` to equal the
condition type, and the default branch is false. -/
def evaluateRule (rule : Rule) (event : Event) : Bool :=
  match rule.conditionType with
  | "login_fail" =>
      event.type == "login_fail" && optGt event.count rule.threshold
  | "traffic_spike" =>
      event.type == "traffic_spike" && optGt event.volume rule.threshold
  | "process_spawn" =>
      event.type == "process_spawn" &&
        (match event.process with
         | some p => p ≠ "" && p == rule.processName
         | none => false)
  | "dns_query" =>
      event.type == "dns_query" &&
        (match event.domain with
         | some d => d ≠ "" && strIncludes d rule.domainKeyword
         | none => false)
  | "http_error" =>
      event.type == "http_error" && optGe event.code rule.errorCodeThreshold
  | "unauthorized_access" =>
      event.type == "unauthorized_access" &&
        (match event.resource with
         | some r => r ≠ "" && strIncludes r rule.resourceKeyword
         | none => false)
  | "service_failure" =>
      event.type == "service_failure" &&
        (match event.service with
         | some s => s == rule.serviceName
         | none => false)
  | _ => false

/-- C5: a rule never matches an event of a different type: whenever
`event.type ≠ rule.conditionType`, `evaluateRule` returns false, for every
condition type. -/
theorem evaluateRule_type_mismatch (r : Rule) (e : Event)
    (h : e.type ≠ r.conditionType) : evaluateRule r e = false := by
  unfold evaluateRule
  split <;> simp_all

/-- C5 witness: a concrete type-mismatched pair evaluates to false. -/
theorem evaluateRule_type_mismatch_witness :
    evaluateRule { conditionType := "login_fail", threshold := 5 }
      { timestamp := 0, type := "dns_query", ip := "10.0.0.1",
        category := "malicious", severity := 4,
        domain := some "badsite.com" } = false :=
  evaluateRule_type_mismatch _ _ (by decide)

/-- A string's character list is empty exactly when the string is empty. -/
theorem toList_eq_nil_iff (s : String) : s.toList = [] ↔ s = "" := by
  constructor
  · intro h
    exact String.ext h
  · intro h
    subst h
    rfl

/-- The empty string contains no non-empty pattern. -/
theorem strIncludes_empty_left (kw : String) (h : kw ≠ "") :
    strIncludes "" kw = false := by
  unfold strIncludes hasSubstring
  have : kw.toList ≠ [] := fun hnil => h ((toList_eq_nil_iff kw).1 hnil)
  simpa [List.isEmpty_iff] using this

/-- The per-type comparison semantics as the specification words them
(given a type-matching event): strict greater-than on count/volume for
login_fail/traffic_spike, exact string equality for
process_spawn/service_failure, substring containment of the keyword for
dns_query/unauthorized_access, greater-or-equal on the numeric code for
http_error. -/
def evaluateRuleSpec (rule : Rule) (event : Event) : Bool :=
  match rule.conditionType with
  | "login_fail" => optGt event.count rule.threshold
  | "traffic_spike" => optGt event.volume rule.threshold
  | "process_spawn" =>
      match event.process with
      | some p => p == rule.processName
      | none => false
  | "dns_query" =>
      match event.domain with
      | some d => strIncludes d rule.domainKeyword
      | none => false
  | "http_error" => optGe event.code rule.errorCodeThreshold
  | "unauthorized_access" =>
      match event.resource with
      | some r => strIncludes r rule.resourceKeyword
      | none => false
  | "service_failure" =>
      match event.service with
      | some s => s == rule.serviceName
      | none => false
  | _ => false

/-- C6: for every rule whose string parameter is non-empty (as rule
validation guarantees) and every type-matching event, `evaluateRule`
implements exactly the per-type comparison semantics: strict `>` on
count/volume for login_fail/traffic_spike, exact equality for
process_spawn/service_failure, substring containment for
dns_query/unauthorized_access, and `≥` on the code for http_error. -/
theorem evaluateRule_per_type (r : Rule) (e : Event)
    (ht : e.type = r.conditionType)
    (hp : r.conditionType = "process_spawn" → r.processName ≠ "")
    (hd : r.conditionType = "dns_query" → r.domainKeyword ≠ "")
    (hr : r.conditionType = "unauthorized_access" → r.resourceKeyword ≠ "") :
    evaluateRule r e = evaluateRuleSpec r e := by
  unfold evaluateRule evaluateRuleSpec
  split
  case _ hlit => simp [ht, hlit]
  case _ hlit => simp [ht, hlit]
  case _ hlit =>
    simp only [ht, hlit, beq_self_eq_true, Bool.true_and]
    cases e.process with
    | none => rfl
    | some p =>
      by_cases hpe : p = ""
      · subst hpe
        have hne : ¬ ("" = r.processName) := fun h => hp hlit h.symm
        simp [hne]
      · simp [hpe]
  case _ hlit =>
    simp only [ht, hlit, beq_self_eq_true, Bool.true_and]
    cases e.domain with
    | none => rfl
    | some d =>
      by_cases hde : d = ""
      · subst hde
        simp [strIncludes_empty_left _ (hd hlit)]
      · simp [hde]
  case _ hlit => simp [ht, hlit]
  case _ hlit =>
    simp only [ht, hlit, beq_self_eq_true, Bool.true_and]
    cases e.resource with
    | none => rfl
    | some q =>
      by_cases hqe : q = ""
      · subst hqe
        simp [strIncludes_empty_left _ (hr hlit)]
      · simp [hqe]
  case _ hlit => simp [ht, hlit]
  case _ => rfl

/-- C6 witness: the specification's scenario — a login_fail rule with
threshold 5 agrees with the per-type semantics, matches an event with
count 6, and does not match count 5 (strict greater-than). -/
theorem evaluateRule_per_type_witness :
    (evaluateRule { conditionType := "login_fail", threshold := 5 }
       { timestamp := 0, type := "login_fail", ip := "10.0.0.1",
         category := "malicious", severity := 3, count := some 6 }
     = evaluateRuleSpec { conditionType := "login_fail", threshold := 5 }
       { timestamp := 0, type := "login_fail", ip := "10.0.0.1",
         category := "malicious", severity := 3, count := some 6 })
    ∧ evaluateRule { conditionType := "login_fail", threshold := 5 }
       { timestamp := 0, type := "login_fail", ip := "10.0.0.1",
         category := "malicious", severity := 3, count := some 6 } = true
    ∧ evaluateRule { conditionType := "login_fail", threshold := 5 }
       { timestamp := 0, type := "login_fail", ip := "10.0.0.1",
         category := "malicious", severity := 3, count := some 5 } = false :=
  ⟨evaluateRule_per_type _ _ rfl (by decide) (by decide) (by decide),
   by decide, by decide⟩

/-- A pending-malicious-queue entry (gameModel.js `addEvent`): the wrapped
event, its enqueue instant (`timestamp`) and a handled flag. -/
structure PendingEntry where
  event : Event
  timestamp : Int
  handled : Bool
deriving DecidableEq, Repr

/-- One traffic sample (gameModel.js `addEvent`). -/
structure TrafficPoint where
  timestamp : Int
  packetCount : Int
deriving DecidableEq, Repr

/-- gameModel.js `state`. -/
structure GameStateRec where
  isRunning : Bool
  level : Int
  score : Int
  uptime : ℚ
  rules : List Rule
  levelProgress : Int
  events : List Event
  pendingMaliciousEvents : List PendingEntry
  trafficData : List TrafficPoint
deriving DecidableEq, Repr

/-- gameModel.js `settings`. -/
structure Settings where
  eventFrequencyMultiplier : ℚ
  noiseEventProbability : ℚ
  attackSophistication : String
  simulationInterval : Int
  falsePositiveChance : ℚ
  escalationTimeout : Int
deriving DecidableEq, Repr

/-- One row of gameModel.js `levels`. -/
structure Level where
  level : Int
  name : String
  description : String
  eventFrequencyMultiplier : ℚ
  noiseEventProbability : ℚ
  attackSophistication : String
  targetScore : Int
deriving DecidableEq, Repr, Inhabited

/-- The fixed ordered level table of gameModel.js. -/
def levels : List Level :=
  [{ level := 1, name := "Level 1: Basic Scan Detection",
     description := "Detect basic reconnaissance scans.",
     eventFrequencyMultiplier := 1/2, noiseEventProbability := 1/10,
     attackSophistication := "basic", targetScore := 1000 },
   { level := 2, name := "Level 2: Exploit Attempts",
     description := "Counter exploit attempts and malware.",
     eventFrequencyMultiplier := 3/5, noiseEventProbability := 3/20,
     attackSophistication := "intermediate", targetScore := 1500 },
   { level := 3, name := "Level 3: Data Exfiltration",
     description := "Prevent data breaches and advanced threats.",
     eventFrequencyMultiplier := 7/10, noiseEventProbability := 1/5,
     attackSophistication := "advanced", targetScore := 2000 }]

/-- The record gameModel.js `saveGameState` writes to localStorage, as the
loader may later see it: each allow-listed key optionally present, plus
arbitrary extra keys outside the allow-list (modelled with integer
payloads). -/
structure RawStored where
  levelV : Option Int := none
  scoreV : Option Int := none
  uptimeV : Option ℚ := none
  rulesV : Option (List Rule) := none
  levelProgressV : Option Int := none
  extra : List (String × Int) := []
deriving DecidableEq, Repr

/-- The state of the `gameState` localStorage slot: absent, unparseable
(so `JSON.parse` throws), or a parsed record. -/
inductive StoredData where
  | absent
  | malformed
  | record (r : RawStored)
deriving DecidableEq, Repr

/-- The whole gameModel object: mutable state, settings, the 0-based
current level index, and the persistence slot it reads/writes. -/
structure Model where
  state : GameStateRec
  settings : Settings
  currentLevelIndex : Nat
  storage : StoredData
deriving DecidableEq, Repr

/-- The initial `state` literal of gameModel.js (also the state installed
by `resetGameState`). -/
def initialState : GameStateRec :=
  { isRunning := false, level := 1, score := 0, uptime := 100, rules := [],
    levelProgress := 0, events := [], pendingMaliciousEvents := [],
    trafficData := [] }

/-- The initial `settings` literal of gameModel.js. -/
def initialSettings : Settings :=
  { eventFrequencyMultiplier := 1, noiseEventProbability := 1/10,
    attackSophistication := "basic", simulationInterval := 9000,
    falsePositiveChance := 1/10, escalationTimeout := 45000 }

/-- The gameModel as first constructed, before `init` runs. -/
def initialModel : Model :=
  { state := initialState, settings := initialSettings,
    currentLevelIndex := 0, storage := .absent }

/-- gameModel.js `saveGameState`: persists exactly
`{level, score, uptime, rules, levelProgress}`. -/
def saveGameState (m : Model) : Model :=
  { m with storage := (StoredData.record
      ⟨some m.state.level, some m.state.score, some m.state.uptime,
       some m.state.rules, some m.state.levelProgress, []⟩) }

/-- gameModel.js `loadGameState`: copies only the allow-listed properties
present on the parsed record, derives `currentLevelIndex = level - 1`, and
clamps to level 1 / index 0 when that index is out of the table's bounds;
an absent or unparseable record leaves the defaults and level 1. -/
def loadGameState (m : Model) : Model :=
  match m.storage with
  | .record r =>
      let s1 : GameStateRec :=
        { m.state with
          level := r.levelV.getD m.state.level,
          score := r.scoreV.getD m.state.score,
          uptime := r.uptimeV.getD m.state.uptime,
          rules := r.rulesV.getD m.state.rules,
          levelProgress := r.levelProgressV.getD m.state.levelProgress }
      let idx : Int := s1.level - 1
      if idx < 0 ∨ (levels.length : Int) ≤ idx then
        { m with state := { s1 with level := 1 }, currentLevelIndex := 0 }
      else
        { m with state := s1, currentLevelIndex := idx.toNat }
  | _ => { m with state := { m.state with level := 1 }, currentLevelIndex := 0 }

/-- gameModel.js `resetGameState`: replace the state with the initial
literal, reset the level index, persist, publish `gameState:reset`. -/
def resetGameState (m : Model) : Model × List String :=
  (saveGameState { m with state := initialState, currentLevelIndex := 0 },
   ["gameState:reset"])

/-- gameModel.js `getCurrentLevel`. -/
def getCurrentLevel (m : Model) : Level :=
  levels.getD m.currentLevelIndex (levels.getD 0 default)

/-- gameModel.js `applyLevelSettings`: copy the current level's generator
settings and publish `settings:updated`. -/
def applyLevelSettings (m : Model) : Model × List String :=
  let lvl := getCurrentLevel m
  ({ m with settings :=
      { m.settings with
        eventFrequencyMultiplier := lvl.eventFrequencyMultiplier,
        noiseEventProbability := lvl.noiseEventProbability,
        attackSophistication := lvl.attackSophistication } },
   ["settings:updated"])

/-- gameModel.js `startNextLevel`: advance within the table, or — past the
final level — reset the full state and publish `game:completed`, returning
false. -/
def startNextLevel (m : Model) : Model × Bool × List String :=
  if m.currentLevelIndex < levels.length - 1 then
    let idx := m.currentLevelIndex + 1
    let m1 : Model :=
      { m with currentLevelIndex := idx,
               state := { m.state with level := (idx : Int) + 1,
                                       levelProgress := 0 } }
    let m2 := saveGameState m1
    let r := applyLevelSettings m2
    (r.1, true, r.2 ++ ["level:changed"])
  else
    let r1 := resetGameState m
    let r2 := applyLevelSettings r1.1
    (r2.1, false, r1.2 ++ r2.2 ++ ["game:completed"])

/-- gameModel.js `calculateScore`: weighted points, clamped at 0 after
rounding, added to the cumulative score, persisted, `score:updated`
published; returns the points earned. -/
def calculateScore (m : Model) (detectedMaliciousEvents responseSpeed
    networkUptime falsePositives : ℚ) : Model × Int × List String :=
  let score : ℚ := detectedMaliciousEvents * 100 + responseSpeed * 5 +
    networkUptime * 10 - falsePositives * 50
  let earnedPoints : Int := max 0 (jsRound score)
  let m1 : Model :=
    { m with state := { m.state with score := m.state.score + earnedPoints } }
  (saveGameState m1, earnedPoints, ["score:updated"])

/-- gameModel.js `addEvent`: append to the log, enqueue a pending entry
when the category is malicious, append a traffic sample evicting the
oldest past 100, publish `event:added`. -/
def addEvent (now : Int) (m : Model) (e : Event) : Model × List String :=
  let pending :=
    if e.category = "malicious" then
      m.state.pendingMaliciousEvents ++ [⟨e, now, false⟩]
    else m.state.pendingMaliciousEvents
  let td := m.state.trafficData ++ [⟨now, 1⟩]
  let td := if td.length > 100 then td.tail else td
  ({ m with state :=
      { m.state with events := m.state.events ++ [e],
                     pendingMaliciousEvents := pending,
                     trafficData := td } },
   ["event:added"])

/-- The composite key used by gameModel.js `markEventAsHandled` to locate
a pending entry: creation instant, type and source IP. -/
def pMatches (p : PendingEntry) (e : Event) : Bool :=
  p.event.timestamp == e.timestamp && p.event.type == e.type &&
    p.event.ip == e.ip

/-- Set `handled := true` on the first entry matching the event (the
mutation `pendingEvent.handled = true` performed through `find`). -/
def setFirstHandled : List PendingEntry → Event → List PendingEntry
  | [], _ => []
  | p :: rest, e =>
      if pMatches p e then { p with handled := true } :: rest
      else p :: setFirstHandled rest e

/-- gameModel.js `markEventAsHandled`: locate the pending entry by the
composite key; if found, set handled, translate the response latency
(capped at 30 s) into a speed bonus, score it, publish `event:handled`
and return true; otherwise return false with no effect. -/
def markEventAsHandled (now : Int) (m : Model) (e : Event) :
    Model × Bool × List String :=
  match m.state.pendingMaliciousEvents.find? (fun p => pMatches p e) with
  | some p =>
      let m1 : Model :=
        { m with state :=
            { m.state with pendingMaliciousEvents :=
                setFirstHandled m.state.pendingMaliciousEvents e } }
      let responseTime : ℚ := min 30 (((now - p.timestamp : Int) : ℚ) / 1000)
      let responseSpeed : ℚ := max 0 (30 - responseTime)
      let r := calculateScore m1 1 responseSpeed m1.state.uptime 0
      (r.1, true, r.2.2 ++ ["event:handled"])
  | none => (m, false, [])

/-- The filter body of gameModel.js `checkEscalations` over the pending
list: drop handled entries, move unhandled entries whose dwell time
reached the timeout to the escalated list, keep the rest. -/
def sweepPending (now timeout : Int) :
    List PendingEntry → List PendingEntry × List Event
  | [] => ([], [])
  | p :: rest =>
      if p.handled then sweepPending now timeout rest
      else if timeout ≤ now - p.timestamp then
        let r := sweepPending now timeout rest
        (r.1, p.event :: r.2)
      else
        let r := sweepPending now timeout rest
        (p :: r.1, r.2)

/-- gameModel.js `checkEscalations`: sweep the pending list and publish
`events:escalated` only when some event escalated. -/
def checkEscalations (now : Int) (m : Model) :
    Model × List Event × List String :=
  let r := sweepPending now m.settings.escalationTimeout
    m.state.pendingMaliciousEvents
  ({ m with state := { m.state with pendingMaliciousEvents := r.1 } },
   r.2,
   if r.2.length > 0 then ["events:escalated"] else [])

/-- C7: for non-negative inputs, `calculateScore` earns
`detected×100 + speedBonus×5 + uptime×10 − falsePositives×50`, rounded and
clamped to at least 0, adds it to the cumulative score, publishes
`score:updated`, and returns the points earned. -/
theorem calculateScore_spec (m : Model) (d s u f : ℚ)
    (hd : 0 ≤ d) (hs : 0 ≤ s) (hu : 0 ≤ u) (hf : 0 ≤ f) :
    (calculateScore m d s u f).2.1 =
      max 0 (jsRound (d * 100 + s * 5 + u * 10 - f * 50)) ∧
    (calculateScore m d s u f).1.state.score =
      m.state.score + max 0 (jsRound (d * 100 + s * 5 + u * 10 - f * 50)) ∧
    (calculateScore m d s u f).2.2 = ["score:updated"] :=
  ⟨rfl, rfl, rfl⟩

/-- C7 witness: the specification's scenario — `calculateScore(1, 25, 80, 0)`
earns `100 + 125 + 800 − 0 = 1025` points. -/
theorem calculateScore_spec_witness :
    (calculateScore initialModel 1 25 80 0).2.1 = 1025 ∧
    (calculateScore initialModel 1 25 80 0).1.state.score = 1025 := by
  have h := calculateScore_spec initialModel 1 25 80 0 (by norm_num)
    (by norm_num) (by norm_num) (by norm_num)
  have he : max 0 (jsRound ((1 : ℚ) * 100 + 25 * 5 + 80 * 10 - 0 * 50)) =
      (1025 : ℤ) := by
    norm_num [jsRound]
  refine ⟨h.1.trans he, ?_⟩
  rw [h.2.1, he]
  norm_num [initialModel, initialState]

/-- A concrete model sitting at the last level of the table. -/
def lastLevelModel : Model :=
  { state := { initialState with level := 3, score := 5000, levelProgress := 900 },
    settings := initialSettings, currentLevelIndex := 2,
    storage := StoredData.absent }

/-- C4 counterexample: advancing past the final level does reset score to 0
and level to 1, but the code publishes `gameState:reset` first and
`game:completed` last — not `game:completed` before the reset event as the
claim states. -/
theorem startNextLevel_order_cex :
    (startNextLevel lastLevelModel).2.2 =
      ["gameState:reset", "settings:updated", "game:completed"] ∧
    (startNextLevel lastLevelModel).2.2.head? = some "gameState:reset" ∧
    (startNextLevel lastLevelModel).2.2.getLast? = some "game:completed" ∧
    (startNextLevel lastLevelModel).1.state.score = 0 ∧
    (startNextLevel lastLevelModel).1.state.level = 1 ∧
    (startNextLevel lastLevelModel).2.1 = false := by
  refine ⟨rfl, rfl, ?_, rfl, rfl, rfl⟩
  rfl

/-- C4 amended: advancing past the final level of the fixed table triggers
a full state reset — score back to 0 and level to 1 (wrap-around, not
failure) — and the publication order is `gameState:reset` first, then
`settings:updated`, then `game:completed` (the reset event precedes
`game:completed`). -/
theorem startNextLevel_final_amended (m : Model)
    (h : ¬ m.currentLevelIndex < levels.length - 1) :
    (startNextLevel m).1.state = initialState ∧
    (startNextLevel m).1.state.score = 0 ∧
    (startNextLevel m).1.state.level = 1 ∧
    (startNextLevel m).2.1 = false ∧
    (startNextLevel m).2.2 =
      ["gameState:reset", "settings:updated", "game:completed"] := by
  simp [startNextLevel, if_neg h, resetGameState, applyLevelSettings,
    saveGameState, initialState]

/-- C4 amended witness: the amended behaviour at a concrete model on the
final level. -/
theorem startNextLevel_final_amended_witness :
    (startNextLevel lastLevelModel).1.state = initialState ∧
    (startNextLevel lastLevelModel).2.1 = false :=
  ⟨(startNextLevel_final_amended lastLevelModel (by decide)).1,
   (startNextLevel_final_amended lastLevelModel (by decide)).2.2.2.1⟩

/-- C8: persistence round-trip and fallbacks. Saving and reloading
reproduces exactly `{level, score, uptime, rules, levelProgress}` when the
saved level is within the table; loading ignores keys outside the
allow-list (two stored records differing only in extra keys load
identically); and the loaded level falls back to the default 1 — with the
full default state — when the record is absent or malformed, and to
level 1 / index 0 when the stored level is outside the table range. -/
theorem persistence_roundtrip :
    (∀ m : Model, 1 ≤ m.state.level → m.state.level ≤ (levels.length : Int) →
      (loadGameState { initialModel with
          storage := (saveGameState m).storage }).state.level = m.state.level ∧
      (loadGameState { initialModel with
          storage := (saveGameState m).storage }).state.score = m.state.score ∧
      (loadGameState { initialModel with
          storage := (saveGameState m).storage }).state.uptime = m.state.uptime ∧
      (loadGameState { initialModel with
          storage := (saveGameState m).storage }).state.rules = m.state.rules ∧
      (loadGameState { initialModel with
          storage := (saveGameState m).storage }).state.levelProgress =
        m.state.levelProgress) ∧
    (∀ (r : RawStored) (extra1 extra2 : List (String × Int)),
      (loadGameState { initialModel with
          storage := StoredData.record { r with extra := extra1 } }).state =
      (loadGameState { initialModel with
          storage := StoredData.record { r with extra := extra2 } }).state ∧
      (loadGameState { initialModel with
          storage := StoredData.record { r with extra := extra1 } }).currentLevelIndex =
      (loadGameState { initialModel with
          storage := StoredData.record { r with extra := extra2 } }).currentLevelIndex) ∧
    ((loadGameState { initialModel with storage := StoredData.absent }).state =
      initialModel.state ∧
     (loadGameState { initialModel with
        storage := StoredData.absent }).currentLevelIndex = 0) ∧
    ((loadGameState { initialModel with storage := StoredData.malformed }).state =
      initialModel.state ∧
     (loadGameState { initialModel with
        storage := StoredData.malformed }).currentLevelIndex = 0) ∧
    (∀ (r : RawStored) (lv : Int), r.levelV = some lv →
      (lv < 1 ∨ (levels.length : Int) < lv) →
      (loadGameState { initialModel with
          storage := StoredData.record r }).state.level = 1 ∧
      (loadGameState { initialModel with
          storage := StoredData.record r }).currentLevelIndex = 0) := by
  refine ⟨?_, ?_, ⟨?_, rfl⟩, ⟨?_, rfl⟩, ?_⟩
  · intro m h1 h2
    have hnot : ¬ (m.state.level < 1 ∨
        (levels.length : Int) ≤ m.state.level - 1) := by
      push_neg
      omega
    simp [loadGameState, saveGameState, hnot]
  · intro r extra1 extra2
    by_cases hc : (r.levelV.getD initialModel.state.level < 1 ∨
        (levels.length : Int) ≤ r.levelV.getD initialModel.state.level - 1)
    · simp [loadGameState, hc]
    · simp [loadGameState, hc]
  · rfl
  · rfl
  · intro r lv hlv hout
    have hcond : (lv < 1 ∨ (levels.length : Int) ≤ lv - 1) := by omega
    simp [loadGameState, hlv, hcond]

/-- When a matching pending entry is found (handled or not), marking scores
and publishes; the speed bonus comes from the found entry's enqueue
instant. -/
theorem markEventAsHandled_found (now : Int) (m : Model) (e : Event)
    (p : PendingEntry)
    (hf : m.state.pendingMaliciousEvents.find? (fun q => pMatches q e) = some p) :
    (markEventAsHandled now m e).1.state.score = m.state.score +
      max 0 (jsRound (1 * 100 +
        (max 0 (30 - min 30 (((now - p.timestamp : Int) : ℚ) / 1000))) * 5 +
        m.state.uptime * 10 - 0 * 50)) ∧
    (markEventAsHandled now m e).2.1 = true ∧
    (markEventAsHandled now m e).2.2 = ["score:updated", "event:handled"] ∧
    (markEventAsHandled now m e).1.state.pendingMaliciousEvents =
      setFirstHandled m.state.pendingMaliciousEvents e := by
  simp [markEventAsHandled, hf, calculateScore, saveGameState]

/-- A concrete malicious event used in trajectory counterexamples. -/
def eMal : Event :=
  { timestamp := 0, type := "login_fail", ip := "10.0.0.9",
    category := "malicious", severity := 3, count := some 7 }

/-- The model after `addEvent` enqueues `eMal` at t=0. -/
def mAfterAdd : Model := (addEvent 0 initialModel eMal).1

/-- The model after `markEventAsHandled` handles `eMal` at t=1000. -/
def mAfterFirstMark : Model := (markEventAsHandled 1000 mAfterAdd eMal).1

/-- C1 counterexample: after `eMal` has been enqueued and already marked
handled (score 1245), a second `markEventAsHandled` call on the same event
still finds the handled pending entry, returns true (not false), publishes
`score:updated` and `event:handled` again, and adds another 1240 points —
the call is not idempotent. -/
theorem markEventAsHandled_idempotent_cex :
    mAfterFirstMark.state.pendingMaliciousEvents =
      [{ event := eMal, timestamp := 0, handled := true }] ∧
    (markEventAsHandled 2000 mAfterFirstMark eMal).2.1 = true ∧
    (markEventAsHandled 2000 mAfterFirstMark eMal).2.2 =
      ["score:updated", "event:handled"] ∧
    mAfterFirstMark.state.score = 1245 ∧
    (markEventAsHandled 2000 mAfterFirstMark eMal).1.state.score = 2485 := by
  have hf1 : mAfterAdd.state.pendingMaliciousEvents.find?
      (fun q => pMatches q eMal) = some ⟨eMal, 0, false⟩ := by decide
  have hf2 : mAfterFirstMark.state.pendingMaliciousEvents.find?
      (fun q => pMatches q eMal) = some ⟨eMal, 0, true⟩ := by decide
  have h1 := markEventAsHandled_found 1000 mAfterAdd eMal ⟨eMal, 0, false⟩ hf1
  have h2 := markEventAsHandled_found 2000 mAfterFirstMark eMal
    ⟨eMal, 0, true⟩ hf2
  have hs0 : mAfterAdd.state.score = 0 := by decide
  have hu0 : mAfterAdd.state.uptime = 100 := by decide
  have hs1 : mAfterFirstMark.state.score = 1245 := by
    have := h1.1
    rw [hs0, hu0] at this
    rw [mAfterFirstMark, this]
    norm_num [jsRound]
  have hu1 : mAfterFirstMark.state.uptime = 100 := by decide
  refine ⟨?_, h2.2.1, h2.2.2.1, hs1, ?_⟩
  · have := h1.2.2.2
    rw [mAfterFirstMark, this]
    decide
  · have := h2.1
    rw [hs1, hu1] at this
    rw [this]
    norm_num [jsRound]

/-- C1 amended: `markEventAsHandled` is not idempotent. It returns false
and is a no-op exactly when no pending entry matches the event's composite
key; whenever a matching entry exists — even one already marked handled —
it returns true, scores again via `calculateScore`, and publishes
`score:updated` and `event:handled` again. Marking therefore only becomes
a no-op after `checkEscalations` has removed the handled entry. -/
theorem markEventAsHandled_amended (now : Int) (m : Model) (e : Event) :
    (m.state.pendingMaliciousEvents.find? (fun p => pMatches p e) = none →
       markEventAsHandled now m e = (m, false, [])) ∧
    (∀ p : PendingEntry,
       m.state.pendingMaliciousEvents.find? (fun q => pMatches q e) = some p →
       (markEventAsHandled now m e).2.1 = true ∧
       (markEventAsHandled now m e).2.2 = ["score:updated", "event:handled"] ∧
       (markEventAsHandled now m e).1.state.score = m.state.score +
         max 0 (jsRound (1 * 100 +
           (max 0 (30 - min 30 (((now - p.timestamp : Int) : ℚ) / 1000))) * 5 +
           m.state.uptime * 10 - 0 * 50))) := by
  constructor
  · intro hn
    simp [markEventAsHandled, hn]
  · intro p hf
    have h := markEventAsHandled_found now m e p hf
    exact ⟨h.2.1, h.2.2.1, h.1⟩

/-- The sweep keeps exactly the unhandled entries below the timeout and
escalates exactly the unhandled entries at or past it, in order. -/
theorem sweepPending_eq (now timeout : Int) (l : List PendingEntry) :
    (sweepPending now timeout l).1 =
      l.filter (fun p => !p.handled && decide (now - p.timestamp < timeout)) ∧
    (sweepPending now timeout l).2 =
      (l.filter (fun p => !p.handled &&
        decide (timeout ≤ now - p.timestamp))).map (fun p => p.event) := by
  induction l with
  | nil => exact ⟨rfl, rfl⟩
  | cons p rest ih =>
    by_cases hh : p.handled
    · simp [sweepPending, hh, List.filter_cons, ih.1, ih.2]
    · by_cases ht : timeout ≤ now - p.timestamp
      · have hlt : ¬ (now - p.timestamp < timeout) := by omega
        simp [sweepPending, hh, ht, hlt, List.filter_cons, ih.1, ih.2]
      · have hlt : now - p.timestamp < timeout := by omega
        simp [sweepPending, hh, ht, hlt, List.filter_cons, ih.1, ih.2]

/-- A model holding one unhandled pending entry enqueued at t=0 (the
default `escalationTimeout` is 45000). -/
def mPendingBoundary : Model :=
  { initialModel with state :=
      { initialState with pendingMaliciousEvents :=
          [{ event := eMal, timestamp := 0, handled := false }] } }

/-- A model holding one already-handled pending entry enqueued at t=0. -/
def mPendingHandled : Model :=
  { initialModel with state :=
      { initialState with pendingMaliciousEvents :=
          [{ event := eMal, timestamp := 0, handled := true }] } }

/-- C3: `checkEscalations` removes already-handled entries without
escalating them; an unhandled entry escalates (is removed from pending and
returned) exactly when `now − enqueuedAt ≥ escalationTimeout`, and remains
pending strictly below the timeout; `events:escalated` is published only
when the escalated list is non-empty. At the boundary with
timeout 45000 and an entry enqueued at t=0: at t=44999 the entry stays
pending with nothing escalated, at t=45000 it escalates in one call, and a
handled entry is dropped silently. -/
theorem checkEscalations_spec :
    (∀ (now : Int) (m : Model),
      (checkEscalations now m).1.state.pendingMaliciousEvents =
        m.state.pendingMaliciousEvents.filter (fun p => !p.handled &&
          decide (now - p.timestamp < m.settings.escalationTimeout)) ∧
      (checkEscalations now m).2.1 =
        (m.state.pendingMaliciousEvents.filter (fun p => !p.handled &&
          decide (m.settings.escalationTimeout ≤ now - p.timestamp))).map
          (fun p => p.event) ∧
      (checkEscalations now m).2.2 =
        (if (checkEscalations now m).2.1 = [] then []
         else ["events:escalated"])) ∧
    (checkEscalations 44999 mPendingBoundary).1.state.pendingMaliciousEvents =
      [{ event := eMal, timestamp := 0, handled := false }] ∧
    (checkEscalations 44999 mPendingBoundary).2.1 = [] ∧
    (checkEscalations 44999 mPendingBoundary).2.2 = [] ∧
    (checkEscalations 45000 mPendingBoundary).1.state.pendingMaliciousEvents =
      [] ∧
    (checkEscalations 45000 mPendingBoundary).2.1 = [eMal] ∧
    (checkEscalations 45000 mPendingBoundary).2.2 = ["events:escalated"] ∧
    (checkEscalations 0 mPendingHandled).1.state.pendingMaliciousEvents = [] ∧
    (checkEscalations 0 mPendingHandled).2.1 = [] ∧
    (checkEscalations 0 mPendingHandled).2.2 = [] := by
  refine ⟨?_, by decide, by decide, by decide, by decide, by decide,
    by decide, by decide, by decide, by decide⟩
  intro now m
  have hs := sweepPending_eq now m.settings.escalationTimeout
    m.state.pendingMaliciousEvents
  refine ⟨?_, ?_, ?_⟩
  · simpa [checkEscalations] using hs.1
  · simpa [checkEscalations] using hs.2
  · rcases h : (sweepPending now m.settings.escalationTimeout
        m.state.pendingMaliciousEvents).2 with _ | ⟨a, tl⟩
    · simp [checkEscalations, h]
    · simp [checkEscalations, h]

/-- Setting the first matching entry handled does not change the sequence
of wrapped events. -/
theorem setFirstHandled_map_event (l : List PendingEntry) (e : Event) :
    (setFirstHandled l e).map (fun p => p.event) =
      l.map (fun p => p.event) := by
  induction l with
  | nil => rfl
  | cons p rest ih =>
    by_cases hm : pMatches p e
    · simp [setFirstHandled, hm]
    · simp [setFirstHandled, hm, ih]

/-- Marking an event handled never removes (or adds) pending entries: the
wrapped event sequence is unchanged. -/
theorem markEventAsHandled_pending_events (now : Int) (m : Model)
    (e : Event) :
    ((markEventAsHandled now m e).1.state.pendingMaliciousEvents).map
      (fun p => p.event) =
    m.state.pendingMaliciousEvents.map (fun p => p.event) := by
  cases hf : m.state.pendingMaliciousEvents.find? (fun q => pMatches q e) with
  | none => simp [markEventAsHandled, hf]
  | some p =>
      have h := markEventAsHandled_found now m e p hf
      rw [h.2.2.2, setFirstHandled_map_event]

/-- One mutation of the gameModel pending queue: the three operations the
specification's pending-queue invariant ranges over. -/
inductive GStep : Model → Model → Prop where
  | add (now : Int) (e : Event) (m : Model) : GStep m (addEvent now m e).1
  | mark (now : Int) (e : Event) (m : Model) :
      GStep m (markEventAsHandled now m e).1
  | check (now : Int) (m : Model) : GStep m (checkEscalations now m).1

/-- The gameModel states reachable from the initial state through
`addEvent`, `markEventAsHandled` and `checkEscalations`. -/
inductive ReachableModel : Model → Prop where
  | init : ReachableModel initialModel
  | step {m mB : Model} : ReachableModel m → GStep m mB → ReachableModel mB

/-- Every pending entry of a reachable model wraps a malicious-category
event. -/
theorem reachable_pending_malicious :
    ∀ m : Model, ReachableModel m →
      ∀ p ∈ m.state.pendingMaliciousEvents,
        p.event.category = "malicious" := by
  intro m hr
  induction hr with
  | init =>
    intro p hp
    simp [initialModel, initialState] at hp
  | @step msrc mB hr hstep ih =>
    cases hstep with
    | add now e mX =>
      intro p hp
      simp only [addEvent] at hp
      by_cases hc : e.category = "malicious"
      · rw [if_pos hc] at hp
        rcases List.mem_append.1 hp with h | h
        · exact ih p h
        · rw [List.mem_singleton.1 h]
          exact hc
      · rw [if_neg hc] at hp
        exact ih p hp
    | mark now e mX =>
      intro p hp
      have hmap := markEventAsHandled_pending_events now msrc e
      have hin : p.event ∈ msrc.state.pendingMaliciousEvents.map
          (fun q => q.event) := by
        rw [← hmap]
        exact List.mem_map_of_mem _ hp
      rcases List.mem_map.1 hin with ⟨q, hq, hqe⟩
      rw [← hqe]
      exact ih q hq
    | check now mX =>
      intro p hp
      simp only [checkEscalations] at hp
      rw [(sweepPending_eq now msrc.settings.escalationTimeout
        msrc.state.pendingMaliciousEvents).1] at hp
      exact ih p (List.mem_filter.1 hp).1

/-- C2 counterexample: the model reached by enqueuing the malicious event
`eMal` and then marking it handled is reachable, yet its pending
collection still holds the (handled) entry — the claimed invariant "an
entry exists iff its event is malicious, unhandled, and not yet escalated"
fails: handled entries stay pending until the next sweep. -/
theorem pending_invariant_cex :
    ReachableModel mAfterFirstMark ∧
    mAfterFirstMark.state.pendingMaliciousEvents =
      [{ event := eMal, timestamp := 0, handled := true }] ∧
    ¬ (∀ m : Model, ReachableModel m →
        ∀ p ∈ m.state.pendingMaliciousEvents, p.handled = false) := by
  have hreach : ReachableModel mAfterFirstMark :=
    ReachableModel.step
      (ReachableModel.step ReachableModel.init (GStep.add 0 eMal initialModel))
      (GStep.mark 1000 eMal mAfterAdd)
  have hpend : mAfterFirstMark.state.pendingMaliciousEvents =
      [{ event := eMal, timestamp := 0, handled := true }] := by decide
  refine ⟨hreach, hpend, fun h => ?_⟩
  have hfalse := h mAfterFirstMark hreach
    { event := eMal, timestamp := 0, handled := true }
    (by rw [hpend]; exact List.mem_singleton_self _)
  simp at hfalse

/-- C2 amended: at every reachable state each pending entry wraps a
malicious-category event; `addEvent` enqueues exactly the malicious
events; `markEventAsHandled` marks but never removes entries; and the only
removal path is a `checkEscalations` sweep, which drops an entry exactly
when it is already handled or its dwell time reached the timeout
(escalation). Handled entries may thus linger in the collection until the
next sweep. -/
theorem pending_queue_amended :
    (∀ m : Model, ReachableModel m →
      ∀ p ∈ m.state.pendingMaliciousEvents,
        p.event.category = "malicious") ∧
    (∀ (now : Int) (m : Model) (e : Event),
      (addEvent now m e).1.state.pendingMaliciousEvents =
        m.state.pendingMaliciousEvents ++
          (if e.category = "malicious"
           then [{ event := e, timestamp := now, handled := false }]
           else [])) ∧
    (∀ (now : Int) (m : Model) (e : Event),
      ((markEventAsHandled now m e).1.state.pendingMaliciousEvents).map
          (fun p => p.event) =
        m.state.pendingMaliciousEvents.map (fun p => p.event)) ∧
    (∀ (now : Int) (m : Model),
      (checkEscalations now m).1.state.pendingMaliciousEvents =
        m.state.pendingMaliciousEvents.filter (fun p => !p.handled &&
          decide (now - p.timestamp < m.settings.escalationTimeout))) := by
  refine ⟨reachable_pending_malicious, ?_, ?_, ?_⟩
  · intro now m e
    by_cases hc : e.category = "malicious" <;> simp [addEvent, hc]
  · intro now m e
    exact markEventAsHandled_pending_events now m e
  · intro now m
    simpa [checkEscalations] using
      (sweepPending_eq now m.settings.escalationTimeout
        m.state.pendingMaliciousEvents).1

/-- The damage record of escalationsController.js
`calculateSimulatedDamage`. -/
structure Damage where
  uptimeImpact : ℚ
  dataBreach : Bool
  financialImpact : ℚ
  recoveryTimeHours : ℚ
deriving DecidableEq, Repr

/-- escalationsController.js `calculateSimulatedDamage`: base damage from
severity, then type-specific adjustments (traffic spikes hit uptime 1.5×
and never breach; unauthorized access and SQL injection always breach with
doubled financial impact; service failures double the uptime hit and
extend recovery). -/
def calculateSimulatedDamage (e : Event) : Damage :=
  let base : Damage :=
    { uptimeImpact := e.severity * 2,
      dataBreach := decide (5 < e.severity),
      financialImpact := e.severity * 1000,
      recoveryTimeHours := ((⌈e.severity / 2⌉ : ℤ) : ℚ) }
  if e.type = "traffic_spike" then
    { base with uptimeImpact := base.uptimeImpact * (3/2),
                dataBreach := false }
  else if e.type = "unauthorized_access" ∨ e.type = "sql_injection" then
    { base with dataBreach := true,
                financialImpact := base.financialImpact * 2 }
  else if e.type = "service_failure" then
    { base with uptimeImpact := base.uptimeImpact * 2,
                recoveryTimeHours := base.recoveryTimeHours * (3/2) }
  else base

/-- escalationsController.js `applyEscalationImpact`: subtract the uptime
impact (clamped at 0), publish `uptime:updated`, publish `game:over` when
uptime reached 0, persist. -/
def applyEscalationImpact (m : Model) (e : Event) : Model × List String :=
  let damage := calculateSimulatedDamage e
  let newUptime := max 0 (m.state.uptime - damage.uptimeImpact)
  let m1 : Model := { m with state := { m.state with uptime := newUptime } }
  (saveGameState m1,
   "uptime:updated" :: (if newUptime ≤ 0 then ["game:over"] else []))

/-- escalationsController.js `handleEscalatedEvents`: for each escalated
event publish `escalation:started` and apply its impact. -/
def handleEscalatedEvents (m : Model) : List Event → Model × List String
  | [] => (m, [])
  | e :: rest =>
      let r1 := applyEscalationImpact m e
      let r2 := handleEscalatedEvents r1.1 rest
      (r2.1, "escalation:started" :: (r1.2 ++ r2.2))

/-- The publications of one impact application, explicitly. -/
theorem applyEscalationImpact_pubs (m : Model) (e : Event) :
    (applyEscalationImpact m e).2 = "uptime:updated" ::
      (if max 0 (m.state.uptime - (calculateSimulatedDamage e).uptimeImpact) ≤ 0
       then ["game:over"] else []) := rfl

/-- One impact application publishes `uptime:updated` exactly once. -/
theorem applyEscalationImpact_count (m : Model) (e : Event) :
    ((applyEscalationImpact m e).2).count "uptime:updated" = 1 := by
  rw [applyEscalationImpact_pubs]
  by_cases hc : max 0 (m.state.uptime -
      (calculateSimulatedDamage e).uptimeImpact) ≤ 0 <;>
    simp [hc]

/-- C10: for every escalated event the uptime penalty is
`severity × 2`, times 3/2 for traffic_spike and times 2 for
service_failure; it is subtracted from uptime clamped at 0;
`uptime:updated` is published exactly once per escalated event;
traffic_spike never counts as a data breach while unauthorized_access and
sql_injection always do, with doubled financial impact; and `game:over` is
published exactly when the clamped uptime reached 0. -/
theorem escalation_impact_spec :
    (∀ e : Event, (calculateSimulatedDamage e).uptimeImpact =
      e.severity * 2 * (if e.type = "traffic_spike" then 3/2
        else if e.type = "service_failure" then 2 else 1)) ∧
    (∀ e : Event, e.type = "traffic_spike" →
      (calculateSimulatedDamage e).dataBreach = false) ∧
    (∀ e : Event,
      e.type = "unauthorized_access" ∨ e.type = "sql_injection" →
      (calculateSimulatedDamage e).dataBreach = true ∧
      (calculateSimulatedDamage e).financialImpact =
        e.severity * 1000 * 2) ∧
    (∀ (m : Model) (e : Event),
      (applyEscalationImpact m e).1.state.uptime =
        max 0 (m.state.uptime - (calculateSimulatedDamage e).uptimeImpact)) ∧
    (∀ (m : Model) (e : Event),
      ((applyEscalationImpact m e).2).count "uptime:updated" = 1) ∧
    (∀ (m : Model) (e : Event),
      ("game:over" ∈ (applyEscalationImpact m e).2 ↔
        max 0 (m.state.uptime -
          (calculateSimulatedDamage e).uptimeImpact) ≤ 0)) ∧
    (∀ (m : Model) (es : List Event),
      ((handleEscalatedEvents m es).2).count "uptime:updated" =
        es.length) := by
  refine ⟨?_, ?_, ?_, ?_, applyEscalationImpact_count, ?_, ?_⟩
  · intro e
    by_cases h1 : e.type = "traffic_spike"
    · have h3 : ¬ e.type = "service_failure" := by rw [h1]; decide
      simp [calculateSimulatedDamage, h1, h3]
    · by_cases h2 : e.type = "unauthorized_access" ∨ e.type = "sql_injection"
      · have h3 : ¬ e.type = "service_failure" := by
          rcases h2 with h2 | h2 <;> rw [h2] <;> decide
        simp [calculateSimulatedDamage, h1, h2, h3]
      · by_cases h3 : e.type = "service_failure"
        · simp [calculateSimulatedDamage, h1, h2, h3]
        · simp [calculateSimulatedDamage, h1, h2, h3]
  · intro e h1
    have h3 : ¬ (e.type = "unauthorized_access" ∨
        e.type = "sql_injection") := by rw [h1]; decide
    simp [calculateSimulatedDamage, h1]
  · intro e h2
    have h1 : ¬ e.type = "traffic_spike" := by
      rcases h2 with h2 | h2 <;> rw [h2] <;> decide
    simp [calculateSimulatedDamage, h1, h2]
  · intro m e
    rfl
  · intro m e
    rw [applyEscalationImpact_pubs]
    by_cases hc : max 0 (m.state.uptime -
        (calculateSimulatedDamage e).uptimeImpact) ≤ 0 <;>
      simp [hc]
  · intro m es
    induction es generalizing m with
    | nil => rfl
    | cons e rest ih =>
      simp [handleEscalatedEvents, List.count_cons, List.count_append,
        applyEscalationImpact_count, ih]
      omega

/-- A template's declared level-scaling record (threats.js). -/
structure LevelScaling where
  frequency : ℚ
deriving DecidableEq, Repr

/-- A catalog event template (threats.js entry), with the fields
eventGenerator.js `chooseEventTemplate` reads. -/
structure Template where
  type : String
  category : String
  likelihood : ℚ
  isNoise : Bool := false
  level_scaling : Option LevelScaling := none
deriving DecidableEq, Repr

/-- The weight eventGenerator.js computes per template:
`likelihood × scalingFactor`, where JavaScript falsiness makes a zero (or
absent) `noiseEventProbability` fall back to 1 (`|| 1`) and a zero
`level_scaling.frequency` fall through to the bare multiplier. -/
def templateWeight (ls : Level) (t : Template) : ℚ :=
  if t.isNoise then
    t.likelihood * (if ls.noiseEventProbability = 0 then 1
      else ls.noiseEventProbability)
  else
    match t.level_scaling with
    | some sc =>
        if sc.frequency = 0 then t.likelihood * ls.eventFrequencyMultiplier
        else t.likelihood * (ls.eventFrequencyMultiplier * sc.frequency)
    | none => t.likelihood * ls.eventFrequencyMultiplier

/-- The selection loop of `chooseEventTemplate`: accumulate weights and
return the first template whose running sum reaches the draw. -/
def walkTemplates : List (Template × ℚ) → ℚ → ℚ → Option Template
  | [], _, _ => none
  | (t, w) :: rest, acc, r =>
      if r ≤ acc + w then some t else walkTemplates rest (acc + w) r

/-- eventGenerator.js `chooseEventTemplate` over an arbitrary catalog,
with the uniform draw `u ∈ [0,1)` passed explicitly
(`randomNum = u × totalWeight`); falls back to the first catalog template
when the walk reaches none. -/
def chooseEventTemplate (catalog : List Template) (ls : Level) (u : ℚ) :
    Option Template :=
  let wts := catalog.map (fun t => (t, templateWeight ls t))
  let totalWeight := wts.foldl (fun sum wt => sum + wt.2) 0
  let randomNum := u * totalWeight
  match walkTemplates wts 0 randomNum with
  | some t => some t
  | none => catalog.head?

/-- The template weight exactly as the specification words it:
`baseLikelihood × scalingFactor` with scalingFactor the level's
noiseEventProbability for noise templates, the multiplier times the
declared scaling frequency when one is declared, else the multiplier —
with no falsiness fallbacks. -/
def templateWeightClaim (ls : Level) (t : Template) : ℚ :=
  t.likelihood * (if t.isNoise then ls.noiseEventProbability
    else match t.level_scaling with
      | some sc => ls.eventFrequencyMultiplier * sc.frequency
      | none => ls.eventFrequencyMultiplier)

/-- The claim's selection procedure: identical walk, but over the
specification's weights. -/
def chooseEventTemplateClaim (catalog : List Template) (ls : Level)
    (u : ℚ) : Option Template :=
  let wts := catalog.map (fun t => (t, templateWeightClaim ls t))
  let totalWeight := wts.foldl (fun sum wt => sum + wt.2) 0
  let randomNum := u * totalWeight
  match walkTemplates wts 0 randomNum with
  | some t => some t
  | none => catalog.head?

/-- A noise template with likelihood 1. -/
def tNoise : Template :=
  { type := "normal_activity", category := "noise", likelihood := 1,
    isNoise := true }

/-- A non-noise template with likelihood 1 and no declared scaling. -/
def tAttack : Template :=
  { type := "login_fail", category := "malicious", likelihood := 1 }

/-- A level-settings record whose noise probability is 0. -/
def lsZero : Level :=
  { level := 1, name := "Zero noise", description := "",
    eventFrequencyMultiplier := 1, noiseEventProbability := 0,
    attackSophistication := "basic", targetScore := 0 }

/-- C9 counterexample: with `noiseEventProbability = 0` the code's `|| 1`
fallback weights the noise template 1 where the claim's formula gives 0,
and on the draw u = 3/10 the code returns the noise template while the
claim's weighting would select the non-noise template. -/
theorem chooseEventTemplate_weights_cex :
    templateWeight lsZero tNoise = 1 ∧
    templateWeightClaim lsZero tNoise = 0 ∧
    chooseEventTemplate [tNoise, tAttack] lsZero (3/10) = some tNoise ∧
    chooseEventTemplateClaim [tNoise, tAttack] lsZero (3/10) =
      some tAttack ∧
    chooseEventTemplate [tNoise, tAttack] lsZero (3/10) ≠
      chooseEventTemplateClaim [tNoise, tAttack] lsZero (3/10) := by
  have h1 : templateWeight lsZero tNoise = 1 := by
    norm_num [templateWeight, lsZero, tNoise]
  have h2 : templateWeightClaim lsZero tNoise = 0 := by
    norm_num [templateWeightClaim, lsZero, tNoise]
  have h3 : chooseEventTemplate [tNoise, tAttack] lsZero (3/10) =
      some tNoise := by
    norm_num [chooseEventTemplate, templateWeight, walkTemplates,
      tNoise, tAttack, lsZero]
  have h4 : chooseEventTemplateClaim [tNoise, tAttack] lsZero (3/10) =
      some tAttack := by
    norm_num [chooseEventTemplateClaim, templateWeightClaim, walkTemplates,
      tNoise, tAttack, lsZero]
  refine ⟨h1, h2, h3, h4, ?_⟩
  rw [h3, h4]
  simp [tNoise, tAttack]

/-- The running cumulative weights of a weight list, from a start value. -/
def cumulativeWeights (acc : ℚ) : List ℚ → List ℚ
  | [] => []
  | w :: rest => (acc + w) :: cumulativeWeights (acc + w) rest

/-- Folding the weights sums them. -/
theorem foldl_add_snd (l : List (Template × ℚ)) (a : ℚ) :
    l.foldl (fun sum wt => sum + wt.2) a = a + (l.map Prod.snd).sum := by
  induction l generalizing a with
  | nil => simp
  | cons hd tl ih => simp [List.foldl_cons, ih, add_assoc]

/-- The accumulator walk selects exactly the first template whose
cumulative weight meets or exceeds the draw. -/
theorem walkTemplates_eq_find (l : List (Template × ℚ)) (acc r : ℚ) :
    walkTemplates l acc r =
      (match ((l.map Prod.fst).zip
          (cumulativeWeights acc (l.map Prod.snd))).find?
          (fun tc => decide (r ≤ tc.2)) with
       | some tc => some tc.1
       | none => none) := by
  induction l generalizing acc with
  | nil => rfl
  | cons hd tl ih =>
    obtain ⟨t, w⟩ := hd
    by_cases h : r ≤ acc + w
    · simp [walkTemplates, cumulativeWeights, h]
    · simp [walkTemplates, cumulativeWeights, h, ih]

/-- C9 amended: `chooseEventTemplate` weights each template as
`likelihood × scalingFactor` where a zero noise probability falls back to
1 and a zero declared scaling frequency falls back to the bare multiplier
(JavaScript `||`/truthiness, as in `templateWeight`); it returns the first
catalog template whose running cumulative weight meets or exceeds the
draw `u × totalWeight`, and deterministically falls back to the first
catalog template when the walk reaches no template. -/
theorem chooseEventTemplate_amended (catalog : List Template) (ls : Level)
    (u : ℚ) :
    chooseEventTemplate catalog ls u =
      (match (catalog.zip
          (cumulativeWeights 0 (catalog.map (templateWeight ls)))).find?
          (fun tc => decide
            (u * (catalog.map (templateWeight ls)).sum ≤ tc.2)) with
       | some tc => some tc.1
       | none => catalog.head?) := by
  have hfst : (catalog.map (fun t => (t, templateWeight ls t))).map
      Prod.fst = catalog := by
    simp [List.map_map, Function.comp_def]
  have hsnd : (catalog.map (fun t => (t, templateWeight ls t))).map
      Prod.snd = catalog.map (templateWeight ls) := by
    simp [List.map_map, Function.comp_def]
  simp only [chooseEventTemplate]
  rw [foldl_add_snd, hsnd, zero_add, walkTemplates_eq_find, hfst, hsnd]
  cases hfind : (catalog.zip
      (cumulativeWeights 0 (catalog.map (templateWeight ls)))).find?
      (fun tc => decide
        (u * (catalog.map (templateWeight ls)).sum ≤ tc.2)) with
  | none => simp [hfind]
  | some tc => simp [hfind]
